import Mathlib

/-!
Shallow embedding of the BookMyBook marketplace core: the checkout workflow
(`createCheckoutSession` / `completeCheckout` from `src/app/actions/stripe.ts`)
and the conversation/message API (the GET/POST message route handlers, here
`listConversations`, `getThread`, `sendMessage`), together with the cart-page
quantity update (`handleUpdateQuantity`).

Modelling conventions:
* Row ids are `Nat`; prices are `ℚ` (TS numbers); statuses are the literal
  strings the code writes ("sold", "completed", "paid").
* The relational store is a record of row lists; reads are modelled as
  infallible pure queries, and each fallible write is governed by a
  `WriteEnv` oracle saying whether that particular write fails (mirroring a
  Supabase call returning an `error`).
* The payment provider is external: `completeCheckout` receives the retrieved
  session as a value, and `createCheckoutSession` returns the session-creation
  request (line items and metadata) it would send to the provider.
* Thrown JS errors become values of `CheckoutError` / `MsgError`.
-/

namespace BookMyBook

structure Book where
  id : Nat
  title : String
deriving DecidableEq, Repr

structure Listing where
  id : Nat
  seller_id : Nat
  book_id : Nat
  price : ℚ
  status : String
deriving DecidableEq, Repr

structure CartItem where
  id : Nat
  buyer_id : Nat
  listing_id : Nat
  quantity : Nat
deriving DecidableEq, Repr

structure Order where
  buyer_id : Nat
  seller_id : Nat
  listing_id : Nat
  total_amount : ℚ
  status : String
  payment_id : Option String
deriving DecidableEq, Repr

structure Message where
  id : Nat
  sender_id : Nat
  receiver_id : Nat
  content : String
  created_at : Nat
  read : Bool
  listing_id : Option Nat
deriving DecidableEq, Repr

structure Profile where
  id : Nat
  full_name : String
deriving DecidableEq, Repr

/-- The external relational store: one list of rows per table. -/
structure Store where
  profiles : List Profile
  books : List Book
  listings : List Listing
  cart_items : List CartItem
  orders : List Order
  messages : List Message
deriving DecidableEq, Repr

/-- The metadata `createCheckoutSession` attaches to the provider session
(`buyer_id` and the comma-joined `cart_item_ids`, modelled as a list). -/
structure SessionMetadata where
  buyer_id : Nat
  cart_item_ids : List Nat
deriving DecidableEq, Repr

/-- One Stripe line item as built at `stripe.ts:65-75`. -/
structure LineItem where
  name : String
  unit_amount : ℤ
  quantity : Nat
deriving DecidableEq, Repr

/-- The session-creation request sent to the provider by
`createCheckoutSession`. -/
structure CreatedSession where
  line_items : List LineItem
  metadata : SessionMetadata
deriving DecidableEq, Repr

/-- A session as retrieved from the provider in `completeCheckout`. -/
structure StripeSession where
  payment_status : String
  payment_intent : Option String
  metadata : Option SessionMetadata
deriving DecidableEq, Repr

inductive CheckoutError where
  | unauthenticated
  | notFound
  | paymentNotCompleted
  | storeWriteError
deriving DecidableEq, Repr

/-- Failure oracle for the store writes issued by `completeCheckout`:
whether a given order insert fails, whether the status update of a given
listing id fails, and whether the bulk cart-item delete fails. -/
structure WriteEnv where
  orderInsertFails : Order → Bool
  listingUpdateFails : Nat → Bool
  cartDeleteFails : Bool

/-- The oracle under which every store write succeeds. -/
def noFailures : WriteEnv :=
  { orderInsertFails := fun _ => false
    listingUpdateFails := fun _ => false
    cartDeleteFails := false }

def findListing (s : Store) (lid : Nat) : Option Listing :=
  s.listings.find? (fun l => l.id == lid)

def findBook (s : Store) (bid : Nat) : Option Book :=
  s.books.find? (fun b => b.id == bid)

/-- The `cart_items` query of `createCheckoutSession` (stripe.ts:50-58):
rows with `id ∈ cartItemIds` and `buyer_id = user.id`, joined with
`listings(price, books(title))`. -/
def fetchCartForCreate (u : Nat) (ids : List Nat) (s : Store) :
    List (CartItem × Listing × Book) :=
  (s.cart_items.filter (fun ci => ids.contains ci.id && ci.buyer_id == u)).filterMap
    (fun ci => (findListing s ci.listing_id).bind fun l =>
      (findBook s l.book_id).map fun b => (ci, l, b))

/-- Line item built from one joined cart row (stripe.ts:65-75): the amount is
`Math.round(listing.price * 100)` and the quantity is the constant 1. -/
def lineItemOf (p : CartItem × Listing × Book) : LineItem :=
  { name := p.2.2.title, unit_amount := round (p.2.1.price * 100), quantity := 1 }

/-- `createCheckoutSession` (stripe.ts:18-90): authenticate, re-query the cart
rows server-side, fail with "Cart items not found" if none matched, otherwise
build the provider session request from store prices. -/
def createCheckoutSession (user : Option Nat) (cartItemIds : List Nat) (s : Store) :
    Except CheckoutError CreatedSession :=
  match user with
  | none => .error .unauthenticated
  | some u =>
    let cartItems := fetchCartForCreate u cartItemIds s
    if cartItems.isEmpty then .error .notFound
    else .ok { line_items := cartItems.map lineItemOf
               metadata := { buyer_id := u, cart_item_ids := cartItemIds } }

/-- The `cart_items` query of `completeCheckout` (stripe.ts:132-140):
rows with `id ∈ cartItemIds` and `buyer_id = user.id`, joined with
`listings(price, seller_id)`. -/
def fetchCartForComplete (u : Nat) (ids : List Nat) (s : Store) :
    List (CartItem × Listing) :=
  (s.cart_items.filter (fun ci => ids.contains ci.id && ci.buyer_id == u)).filterMap
    (fun ci => (findListing s ci.listing_id).map fun l => (ci, l))

/-- The order row inserted for one joined cart row (stripe.ts:148-155). -/
def orderOf (u : Nat) (pid : Option String) (p : CartItem × Listing) : Order :=
  { buyer_id := u, seller_id := p.2.seller_id, listing_id := p.1.listing_id,
    total_amount := p.2.price, status := "completed", payment_id := pid }

/-- `update listings set status = 'sold' where id = lid` (stripe.ts:160). -/
def markSold (lid : Nat) (ls : List Listing) : List Listing :=
  ls.map (fun l => if l.id == lid then { l with status := "sold" } else l)

/-- The per-item loop of `completeCheckout` (stripe.ts:147-161): insert the
order (throwing on `orderError`, which aborts the remaining items), then issue
the listing-status update whose error the code never checks. -/
def runItems (env : WriteEnv) (u : Nat) (pid : Option String) :
    List (CartItem × Listing) → Store → Store × Option CheckoutError
  | [], s => (s, none)
  | p :: rest, s =>
    let o := orderOf u pid p
    if env.orderInsertFails o then (s, some .storeWriteError)
    else
      let s1 : Store := { s with orders := s.orders ++ [o] }
      let s2 : Store :=
        if env.listingUpdateFails p.1.listing_id then s1
        else { s1 with listings := markSold p.1.listing_id s1.listings }
      runItems env u pid rest s2

/-- `session.metadata?.cart_item_ids?.split(",") || []` (stripe.ts:129). -/
def sessionCartItemIds (sess : StripeSession) : List Nat :=
  (sess.metadata.map (fun md => md.cart_item_ids)).getD []

/-- `completeCheckout` (stripe.ts:92-169): authenticate, retrieve the session
(passed in as `sess`), reject unless `payment_status = "paid"`, re-query the
metadata's cart items scoped to the caller, run the per-item loop, then bulk
delete the cart items by the metadata id set (throwing on `deleteError`). -/
def completeCheckout (env : WriteEnv) (sess : StripeSession) (user : Option Nat)
    (s : Store) : Store × Option CheckoutError :=
  match user with
  | none => (s, some .unauthenticated)
  | some u =>
    if sess.payment_status ≠ "paid" then (s, some .paymentNotCompleted)
    else
      let cartItemIds := sessionCartItemIds sess
      let matched := fetchCartForComplete u cartItemIds s
      match runItems env u sess.payment_intent matched s with
      | (s1, some e) => (s1, some e)
      | (s1, none) =>
        if env.cartDeleteFails then (s1, some .storeWriteError)
        else
          let remaining := s1.cart_items.filter (fun ci => !cartItemIds.contains ci.id)
          ({ s1 with cart_items := remaining }, none)

/-- The store after `update cart_items set quantity = q where id = cid`. -/
def updCart (cid q : Nat) (s : Store) : Store :=
  let items := s.cart_items.map
    (fun ci => if ci.id == cid then { ci with quantity := q } else ci)
  { s with cart_items := items }

/-- `handleUpdateQuantity` from the cart page: no-op when `newQuantity < 1`,
otherwise `update cart_items set quantity = newQuantity where id = cartItemId`. -/
def handleUpdateQuantity (cartItemId : Nat) (newQuantity : Nat) (s : Store) : Store :=
  if newQuantity < 1 then s
  else updCart cartItemId newQuantity s

inductive MsgError where
  | unauthorized
  | missingFields
deriving DecidableEq, Repr

/-- `sender_id.eq.user OR receiver_id.eq.user` filter of the conversations query. -/
def msgInvolves (u : Nat) (m : Message) : Bool :=
  m.sender_id == u || m.receiver_id == u

/-- `msg.sender_id === user.id ? msg.receiver_id : msg.sender_id`. -/
def counterpart (u : Nat) (m : Message) : Nat :=
  if m.sender_id == u then m.receiver_id else m.sender_id

/-- Insertion step of the descending-by-`created_at` sort modelling
`.order("created_at", { ascending: false })`. -/
def insertDesc (m : Message) : List Message → List Message
  | [] => [m]
  | x :: xs => if x.created_at ≤ m.created_at then m :: x :: xs else x :: insertDesc m xs

/-- Sort newest-first by `created_at`. -/
def sortDesc : List Message → List Message
  | [] => []
  | m :: ms => insertDesc m (sortDesc ms)

/-- Insertion step of the ascending sort modelling
`.order("created_at", { ascending: true })`. -/
def insertAsc (m : Message) : List Message → List Message
  | [] => [m]
  | x :: xs => if m.created_at ≤ x.created_at then m :: x :: xs else x :: insertAsc m xs

/-- Sort oldest-first by `created_at`. -/
def sortAsc : List Message → List Message
  | [] => []
  | m :: ms => insertAsc m (sortAsc ms)

/-- One step of the JS `Map` grouping: push `m` onto the existing group for
key `k` (JS `push` appends at the end), or create a new group at the end of
the map's insertion order. -/
def insertGrouped (k : Nat) (m : Message) :
    List (Nat × List Message) → List (Nat × List Message)
  | [] => [(k, [m])]
  | g :: gs => if g.1 == k then (g.1, g.2 ++ [m]) :: gs else g :: insertGrouped k m gs

def convStep (u : Nat) (acc : List (Nat × List Message)) (m : Message) :
    List (Nat × List Message) :=
  insertGrouped (counterpart u m) m acc

/-- The `data.forEach` grouping of messages by counterpart into an
insertion-ordered map. -/
def groupConvs (u : Nat) (msgs : List Message) : List (Nat × List Message) :=
  msgs.foldl (convStep u) []

structure Conversation where
  userId : Nat
  profile : Option Profile
  lastMessage : Option Message
  unreadCount : Nat
deriving DecidableEq, Repr

/-- One entry of `conversationList`: `lastMessage` is `messages[0]` and
`unreadCount` counts group messages with `receiver_id = user.id && !read`. -/
def mkConversation (u : Nat) (s : Store) (g : Nat × List Message) : Conversation :=
  { userId := g.1
    profile := s.profiles.find? (fun p => p.id == g.1)
    lastMessage := g.2.head?
    unreadCount := (g.2.filter (fun m => m.receiver_id == u && !m.read)).length }

/-- The GET handler without `otherUserId`: load the caller's messages newest
first, group by counterpart, and build the conversation list. -/
def listConversations (user : Option Nat) (s : Store) :
    Except MsgError (List Conversation) :=
  match user with
  | none => .error .unauthorized
  | some u =>
    let msgs := sortDesc (s.messages.filter (msgInvolves u))
    .ok ((groupConvs u msgs).map (mkConversation u s))

/-- The GET handler with `otherUserId`: return the two-party thread oldest
first and mark as read every stored message with `receiver_id = user.id`
and `sender_id = otherUserId`. -/
def getThread (user : Option Nat) (otherUserId : Nat) (s : Store) :
    Except MsgError (List Message × Store) :=
  match user with
  | none => .error .unauthorized
  | some u =>
    let thread := sortAsc (s.messages.filter (fun m =>
      (m.sender_id == u && m.receiver_id == otherUserId) ||
      (m.sender_id == otherUserId && m.receiver_id == u)))
    let marked := s.messages.map (fun m =>
      if m.receiver_id == u && m.sender_id == otherUserId then { m with read := true } else m)
    .ok (thread, { s with messages := marked })

/-- The POST handler: reject a missing receiver or empty content with the 400
"Missing required fields" response, otherwise insert one message row with
`read = false` (id and timestamp generated by the store, passed in here) and
return the stored row. -/
def sendMessage (user : Option Nat) (receiverId : Option Nat) (content : String)
    (listingId : Option Nat) (newId newTime : Nat) (s : Store) :
    Except MsgError (Message × Store) :=
  match user with
  | none => .error .unauthorized
  | some u =>
    match receiverId with
    | none => .error .missingFields
    | some r =>
      if content = "" then .error .missingFields
      else
        let m : Message := { id := newId, sender_id := u, receiver_id := r, content := content,
                             created_at := newTime, read := false, listing_id := listingId }
        .ok (m, { s with messages := s.messages ++ [m] })

/-- The listing ids touched by a batch of joined cart rows. -/
def listingIds (items : List (CartItem × Listing)) : List Nat :=
  items.map (fun p => p.1.listing_id)

/-- Batch form of the sequential listing-status updates. -/
def markSoldAll (ids : List Nat) (ls : List Listing) : List Listing :=
  ls.map (fun l => if ids.contains l.id then { l with status := "sold" } else l)

/-- The listing ids whose status update the oracle lets succeed — the only
ones actually flipped to "sold", since the code discards the update error. -/
def soldIds (env : WriteEnv) (items : List (CartItem × Listing)) : List Nat :=
  (items.filter (fun p => !env.listingUpdateFails p.1.listing_id)).map
    (fun p => p.1.listing_id)

/-! ### Concrete fixtures used by witnesses and counterexamples -/

/-- Store of the spec's checkout scenario: buyer 1 has two cart items for
listings priced 199 and 350 by sellers 2 and 3. -/
def exStore : Store :=
  { profiles := [⟨1, "Buyer"⟩, ⟨2, "SellerA"⟩]
    books := [⟨10, "Book One"⟩, ⟨11, "Book Two"⟩]
    listings := [⟨100, 2, 10, 199, "available"⟩, ⟨101, 3, 11, 350, "available"⟩]
    cart_items := [⟨1000, 1, 100, 1⟩, ⟨1001, 1, 101, 1⟩]
    orders := []
    messages := [] }

/-- A paid provider session carrying the metadata `createCheckoutSession`
attached for buyer 1's two cart items, with payment reference "pay_1". -/
def exSession : StripeSession :=
  { payment_status := "paid", payment_intent := some "pay_1",
    metadata := some { buyer_id := 1, cart_item_ids := [1000, 1001] } }

/-- The same session before the provider reports payment. -/
def exSessionUnpaid : StripeSession :=
  { payment_status := "unpaid", payment_intent := none,
    metadata := some { buyer_id := 1, cart_item_ids := [1000, 1001] } }

/-- The session request `createCheckoutSession` builds for `exStore`'s cart. -/
def exCreated : CreatedSession :=
  { line_items := [⟨"Book One", round ((199 : ℚ) * 100), 1⟩,
                   ⟨"Book Two", round ((350 : ℚ) * 100), 1⟩]
    metadata := { buyer_id := 1, cart_item_ids := [1000, 1001] } }

/-- A write oracle under which every listing-status update fails while order
inserts and the cart delete succeed. -/
def envUpdateFail : WriteEnv :=
  { orderInsertFails := fun _ => false
    listingUpdateFails := fun _ => true
    cartDeleteFails := false }

/-- Messaging fixture: caller 1 exchanged messages with counterpart 5
(latest at time 3, two unread) and counterpart 6 (latest at time 1). -/
def msgStore : Store :=
  { profiles := [⟨5, "UserA"⟩, ⟨6, "UserB"⟩]
    books := [], listings := [], cart_items := [], orders := []
    messages := [⟨1, 1, 6, "to B", 1, true, none⟩,
                 ⟨2, 5, 1, "from A", 2, false, none⟩,
                 ⟨3, 5, 1, "from A again", 3, false, none⟩] }

/-- "Not older than": the descending `created_at` ordering on messages. -/
def msgGE (a b : Message) : Prop := b.created_at ≤ a.created_at

/-- Invariant of the conversation-grouping fold after processing the prefix
`L` of the newest-first message list: keys are distinct, each group holds
exactly the processed messages of its counterpart in processing order, every
processed message has a group, groups are nonempty, and group heads appear
in descending `created_at` order. -/
structure GInv (u : Nat) (L : List Message) (gs : List (Nat × List Message)) : Prop where
  nodup : (gs.map Prod.fst).Nodup
  content : ∀ g ∈ gs, g.2 = L.filter (fun m => counterpart u m == g.1)
  cover : ∀ m ∈ L, counterpart u m ∈ gs.map Prod.fst
  nonempty : ∀ g ∈ gs, g.2 ≠ []
  ord : gs.Pairwise (fun g1 g2 => ∀ m1 m2, g1.2.head? = some m1 →
    g2.2.head? = some m2 → m2.created_at ≤ m1.created_at)

/-- The conversation list computed for caller 1 on `msgStore`. -/
def exConvs : List Conversation :=
  [{ userId := 5, profile := some ⟨5, "UserA"⟩,
     lastMessage := some ⟨3, 5, 1, "from A again", 3, false, none⟩, unreadCount := 2 },
   { userId := 6, profile := some ⟨6, "UserB"⟩,
     lastMessage := some ⟨1, 1, 6, "to B", 1, true, none⟩, unreadCount := 0 }]

/-! ## Helper lemmas about the per-item order loop -/

lemma markSoldAll_nil (ls : List Listing) : markSoldAll [] ls = ls := by
  simp [markSoldAll]

lemma markSoldAll_markSold (lid : Nat) (ids : List Nat) (ls : List Listing) :
    markSoldAll ids (markSold lid ls) = markSoldAll (lid :: ids) ls := by
  unfold markSoldAll markSold
  rw [List.map_map]
  apply List.map_congr_left
  intro l _
  by_cases h : l.id = lid
  · simp [Function.comp, h]
  · simp [Function.comp, h]

lemma runItems_cart_items (env : WriteEnv) (u : Nat) (pid : Option String) :
    ∀ (items : List (CartItem × Listing)) (s : Store),
      ((runItems env u pid items s).1).cart_items = s.cart_items := by
  intro items
  induction items with
  | nil => intro s; simp [runItems]
  | cons p rest ih =>
    intro s
    by_cases h : env.orderInsertFails (orderOf u pid p)
    · simp [runItems, h]
    · simp only [runItems, h, if_false, Bool.false_eq_true]
      rw [ih]
      split <;> rfl

lemma runItems_none_iff (env : WriteEnv) (u : Nat) (pid : Option String) :
    ∀ (items : List (CartItem × Listing)) (s : Store),
      (runItems env u pid items s).2 = none ↔
        ∀ p ∈ items, env.orderInsertFails (orderOf u pid p) = false := by
  intro items
  induction items with
  | nil => intro s; simp [runItems]
  | cons p rest ih =>
    intro s
    by_cases h : env.orderInsertFails (orderOf u pid p)
    · simp [runItems, h]
    · simp only [runItems, h, if_false, Bool.false_eq_true]
      rw [ih]
      simp [h]

lemma noFailures_order (o : Order) : noFailures.orderInsertFails o = false := rfl

lemma noFailures_listing (lid : Nat) : noFailures.listingUpdateFails lid = false := rfl

lemma noFailures_delete : noFailures.cartDeleteFails = false := rfl

lemma runItems_noFailures (u : Nat) (pid : Option String) :
    ∀ (items : List (CartItem × Listing)) (s : Store),
      runItems noFailures u pid items s =
        ({ s with orders := s.orders ++ items.map (orderOf u pid),
                  listings := markSoldAll (listingIds items) s.listings }, none) := by
  intro items
  induction items with
  | nil => intro s; simp [runItems, listingIds, markSoldAll_nil]
  | cons p rest ih =>
    intro s
    simp only [runItems, noFailures_order, noFailures_listing, if_false, Bool.false_eq_true]
    rw [ih]
    simp only [listingIds, List.map_cons]
    rw [markSoldAll_markSold]
    simp [List.append_assoc]

/-- Full characterization of `completeCheckout` on a paid session when every
store write succeeds. -/
lemma completeCheckout_noFailures (sess : StripeSession) (u : Nat) (s : Store)
    (hpaid : sess.payment_status = "paid") :
    completeCheckout noFailures sess (some u) s =
      ({ s with
          orders := s.orders ++
            (fetchCartForComplete u (sessionCartItemIds sess) s).map
              (orderOf u sess.payment_intent),
          listings := markSoldAll
            (listingIds (fetchCartForComplete u (sessionCartItemIds sess) s)) s.listings,
          cart_items := s.cart_items.filter
            (fun ci => !(sessionCartItemIds sess).contains ci.id) }, none) := by
  simp only [completeCheckout, hpaid, ne_eq, not_true_eq_false, if_false]
  rw [runItems_noFailures]
  simp [noFailures_delete]

/-- **C4.** For every session whose payment status is anything other than
"paid", `completeCheckout` for an authenticated caller fails with the
payment-not-completed error and returns the store unchanged: no Order rows
are created, no listing status changes, and no cart items are deleted. -/
theorem completeCheckout_unpaid (env : WriteEnv) (sess : StripeSession) (u : Nat)
    (s : Store) (hne : sess.payment_status ≠ "paid") :
    completeCheckout env sess (some u) s = (s, some .paymentNotCompleted) := by
  simp [completeCheckout, hne]

/-- Witness for C4 at the concrete unpaid session and store. -/
theorem completeCheckout_unpaid_witness :
    exSessionUnpaid.payment_status ≠ "paid" ∧
    completeCheckout noFailures exSessionUnpaid (some 1) exStore =
      (exStore, some .paymentNotCompleted) :=
  ⟨by decide, completeCheckout_unpaid noFailures exSessionUnpaid 1 exStore (by decide)⟩

/-- Unfolding of `completeCheckout` for an authenticated caller and a paid
session. -/
lemma completeCheckout_paid (env : WriteEnv) (sess : StripeSession) (u : Nat)
    (s : Store) (hpaid : sess.payment_status = "paid") :
    completeCheckout env sess (some u) s =
      match runItems env u sess.payment_intent
          (fetchCartForComplete u (sessionCartItemIds sess) s) s with
      | (s1, some e) => (s1, some e)
      | (s1, none) =>
        if env.cartDeleteFails then (s1, some .storeWriteError)
        else ({ s1 with cart_items := s1.cart_items.filter (fun ci => !(sessionCartItemIds sess).contains ci.id) }, none) := by
  simp [completeCheckout, hpaid]

/-- **C1 (amended).** On a paid session, `completeCheckout` returns success
iff the cart-item deletion and every Order insert for the matched cart items
succeed; listing-status update failures are never checked and cannot prevent
success. On any error outcome the cart rows are left untouched. -/
theorem completeCheckout_success_iff (env : WriteEnv) (sess : StripeSession) (u : Nat)
    (s : Store) (hpaid : sess.payment_status = "paid") :
    ((completeCheckout env sess (some u) s).2 = none ↔
      (env.cartDeleteFails = false ∧
        ∀ p ∈ fetchCartForComplete u (sessionCartItemIds sess) s,
          env.orderInsertFails (orderOf u sess.payment_intent p) = false)) ∧
    ((completeCheckout env sess (some u) s).2 ≠ none →
      (completeCheckout env sess (some u) s).1.cart_items = s.cart_items) := by
  rw [completeCheckout_paid env sess u s hpaid]
  rcases hres : runItems env u sess.payment_intent
      (fetchCartForComplete u (sessionCartItemIds sess) s) s with ⟨s1, e⟩
  have hcart : s1.cart_items = s.cart_items := by
    have hx := runItems_cart_items env u sess.payment_intent
      (fetchCartForComplete u (sessionCartItemIds sess) s) s
    rw [hres] at hx
    exact hx
  have hnone := runItems_none_iff env u sess.payment_intent
    (fetchCartForComplete u (sessionCartItemIds sess) s) s
  rw [hres] at hnone
  cases e with
  | some err =>
    simp only [hres]
    refine ⟨⟨fun h => absurd h (by simp), ?_⟩, fun _ => hcart⟩
    rintro ⟨hd, hall⟩
    have h2 := hnone.mpr hall
    simp at h2
  | none =>
    simp only [hres]
    cases hdel : env.cartDeleteFails with
    | true =>
      simp only [hdel, if_true]
      refine ⟨⟨fun h => absurd h (by simp), ?_⟩, fun _ => hcart⟩
      rintro ⟨hd, _⟩
      simp [hdel] at hd
    | false =>
      simp only [hdel, if_false, Bool.false_eq_true]
      exact ⟨⟨fun _ => ⟨by simp [hdel], hnone.mp rfl⟩, fun _ => by trivial⟩,
        fun h => absurd (by trivial) h⟩

/-- Counterexample to C1 as stated: with an oracle under which every
listing-status update fails (but inserts and the delete succeed),
`completeCheckout` still reports success, and the paid listings remain
"available" — so success does not require the listing updates to succeed. -/
theorem completeCheckout_ignores_update_failure :
    (completeCheckout envUpdateFail exSession (some 1) exStore).2 = none ∧
    envUpdateFail.listingUpdateFails 100 = true ∧
    (completeCheckout envUpdateFail exSession (some 1) exStore).1.listings =
      [⟨100, 2, 10, 199, "available"⟩, ⟨101, 3, 11, 350, "available"⟩] :=
  ⟨rfl, rfl, rfl⟩

/-- Witness for C1 (amended) at a concrete paid session and store. -/
theorem completeCheckout_success_iff_witness :
    exSession.payment_status = "paid" ∧
    (((completeCheckout envUpdateFail exSession (some 1) exStore).2 = none ↔
      (envUpdateFail.cartDeleteFails = false ∧
        ∀ p ∈ fetchCartForComplete 1 (sessionCartItemIds exSession) exStore,
          envUpdateFail.orderInsertFails (orderOf 1 exSession.payment_intent p) = false)) ∧
    ((completeCheckout envUpdateFail exSession (some 1) exStore).2 ≠ none →
      (completeCheckout envUpdateFail exSession (some 1) exStore).1.cart_items =
        exStore.cart_items)) :=
  ⟨rfl, completeCheckout_success_iff envUpdateFail exSession 1 exStore rfl⟩

/-- **C2.** Re-running `completeCheckout` with the same completed session on
the store left by a successful first run is a no-op success: the re-query by
the metadata's cart-item ids matches nothing (those rows were deleted), so no
further Order rows are created, nothing changes, and no error is raised. -/
theorem completeCheckout_idempotent (env : WriteEnv) (sess : StripeSession) (u : Nat)
    (s s1 : Store) (h1 : completeCheckout env sess (some u) s = (s1, none)) :
    completeCheckout env sess (some u) s1 = (s1, none) := by
  by_cases hpaid : sess.payment_status = "paid"
  · rw [completeCheckout_paid env sess u s hpaid] at h1
    rcases hres : runItems env u sess.payment_intent
        (fetchCartForComplete u (sessionCartItemIds sess) s) s with ⟨sA, e⟩
    rw [hres] at h1
    cases e with
    | some err => simp at h1
    | none =>
      cases hdel : env.cartDeleteFails with
      | true => rw [hdel] at h1; simp at h1
      | false =>
        rw [hdel] at h1
        simp only [Bool.false_eq_true, if_false, Prod.mk.injEq, and_true] at h1
        have hc1 : s1.cart_items = sA.cart_items.filter
            (fun ci => !(sessionCartItemIds sess).contains ci.id) := by
          rw [← h1]
        have hempty : fetchCartForComplete u (sessionCartItemIds sess) s1 = [] := by
          unfold fetchCartForComplete
          rw [hc1, List.filter_filter]
          have hnil : sA.cart_items.filter (fun ci =>
              ((sessionCartItemIds sess).contains ci.id && ci.buyer_id == u) &&
                !(sessionCartItemIds sess).contains ci.id) = [] := by
            apply List.filter_eq_nil_iff.mpr
            intro a _
            cases hca : (sessionCartItemIds sess).contains a.id <;> simp [hca]
          rw [hnil]
          rfl
        rw [completeCheckout_paid env sess u s1 hpaid, hempty]
        have hrun : runItems env u sess.payment_intent [] s1 = (s1, none) := rfl
        rw [hrun, hdel]
        simp only [Bool.false_eq_true, if_false]
        have hfix : s1.cart_items.filter
            (fun ci => !(sessionCartItemIds sess).contains ci.id) = s1.cart_items := by
          rw [hc1, List.filter_filter]
          apply List.filter_congr
          intro a _
          cases hca : (sessionCartItemIds sess).contains a.id <;> simp [hca]
        rw [hfix]
  · simp [completeCheckout, hpaid] at h1

/-- Witness for C2: the concrete first run leaves `exStoreAfter`, and the
second run on it succeeds and changes nothing. -/
theorem completeCheckout_idempotent_witness :
    completeCheckout noFailures exSession (some 1) exStore =
      ((completeCheckout noFailures exSession (some 1) exStore).1, none) ∧
    completeCheckout noFailures exSession (some 1)
        (completeCheckout noFailures exSession (some 1) exStore).1 =
      ((completeCheckout noFailures exSession (some 1) exStore).1, none) :=
  ⟨rfl, completeCheckout_idempotent noFailures exSession 1 exStore
    (completeCheckout noFailures exSession (some 1) exStore).1 rfl⟩

/-- Counterexample to C3 as stated: under the oracle that fails every
listing-status update, `completeCheckout` on the paid session succeeds, the
metadata matches buyer 1's two cart items, yet both matched listings remain
"available" in the resulting store — so "each such listing's status is sold"
does not follow from success alone. -/
theorem completeCheckout_success_despite_unsold_listing :
    exSession.payment_status = "paid" ∧
    (completeCheckout envUpdateFail exSession (some 1) exStore).2 = none ∧
    fetchCartForComplete 1 (sessionCartItemIds exSession) exStore =
      [(⟨1000, 1, 100, 1⟩, ⟨100, 2, 10, 199, "available"⟩),
       (⟨1001, 1, 101, 1⟩, ⟨101, 3, 11, 350, "available"⟩)] ∧
    (completeCheckout envUpdateFail exSession (some 1) exStore).1.listings =
      [⟨100, 2, 10, 199, "available"⟩, ⟨101, 3, 11, 350, "available"⟩] :=
  ⟨rfl, rfl, rfl, rfl⟩

/-- Characterization of the per-item loop when every order insert succeeds:
all orders are appended, and exactly the listings whose (unchecked) status
update succeeds are flipped to "sold". -/
lemma runItems_success (env : WriteEnv) (u : Nat) (pid : Option String) :
    ∀ (items : List (CartItem × Listing)) (s : Store),
      (∀ p ∈ items, env.orderInsertFails (orderOf u pid p) = false) →
      runItems env u pid items s =
        ({ s with orders := s.orders ++ items.map (orderOf u pid),
                  listings := markSoldAll (soldIds env items) s.listings }, none) := by
  intro items
  induction items with
  | nil => intro s _; simp [runItems, soldIds, markSoldAll_nil]
  | cons p rest ih =>
    intro s hall
    have hp0 : env.orderInsertFails (orderOf u pid p) = false :=
      hall p (List.mem_cons_self p rest)
    have hrest : ∀ q ∈ rest, env.orderInsertFails (orderOf u pid q) = false :=
      fun q hq => hall q (List.mem_cons_of_mem p hq)
    simp only [runItems, hp0, Bool.false_eq_true, if_false]
    rw [ih _ hrest]
    cases hupd : env.listingUpdateFails p.1.listing_id with
    | true =>
      have hsold : soldIds env (p :: rest) = soldIds env rest := by
        simp [soldIds, List.filter_cons, hupd]
      rw [hsold]
      simp [List.append_assoc]
    | false =>
      have hsold : soldIds env (p :: rest) = p.1.listing_id :: soldIds env rest := by
        simp [soldIds, List.filter_cons, hupd]
      rw [hsold, ← markSoldAll_markSold]
      simp [List.append_assoc]

/-- **C3 (amended).** After any successful `completeCheckout` on a paid
session, the order table is extended by exactly one row per cart item
matched by the session metadata and owned by the caller — buyer = caller,
seller = the listing's seller_id, total_amount = the listing's stored price,
status = "completed", payment_id = the session's payment reference — and
all cart rows with the metadata's ids are deleted; a matched listing's
status is "sold" provided its (unchecked) status update succeeded — success
alone does not guarantee it, as the counterexample shows. -/
theorem completeCheckout_success_effects (env : WriteEnv) (sess : StripeSession)
    (u : Nat) (s s1 : Store) (hpaid : sess.payment_status = "paid")
    (h : completeCheckout env sess (some u) s = (s1, none)) :
    s1.orders = s.orders ++ (fetchCartForComplete u (sessionCartItemIds sess) s).map
      (fun p => ({ buyer_id := u, seller_id := p.2.seller_id,
                   listing_id := p.1.listing_id, total_amount := p.2.price,
                   status := "completed", payment_id := sess.payment_intent } : Order)) ∧
    (∀ p ∈ fetchCartForComplete u (sessionCartItemIds sess) s,
      env.listingUpdateFails p.1.listing_id = false →
      ∀ l ∈ s1.listings, l.id = p.1.listing_id → l.status = "sold") ∧
    s1.cart_items = s.cart_items.filter
      (fun ci => !(sessionCartItemIds sess).contains ci.id) := by
  rw [completeCheckout_paid env sess u s hpaid] at h
  rcases hres : runItems env u sess.payment_intent
      (fetchCartForComplete u (sessionCartItemIds sess) s) s with ⟨sA, e⟩
  rw [hres] at h
  cases e with
  | some err => simp at h
  | none =>
    have hn := runItems_none_iff env u sess.payment_intent
      (fetchCartForComplete u (sessionCartItemIds sess) s) s
    rw [hres] at hn
    have hall := hn.mp rfl
    have hchar := runItems_success env u sess.payment_intent
      (fetchCartForComplete u (sessionCartItemIds sess) s) s hall
    rw [hchar] at hres
    have hsA : sA = { s with
        orders := s.orders ++ (fetchCartForComplete u (sessionCartItemIds sess) s).map
          (orderOf u sess.payment_intent),
        listings := markSoldAll
          (soldIds env (fetchCartForComplete u (sessionCartItemIds sess) s))
          s.listings } := by
      have hfst := congrArg Prod.fst hres
      simpa using hfst.symm
    cases hdel : env.cartDeleteFails with
    | true =>
      rw [hdel] at h
      simp at h
    | false =>
      rw [hdel] at h
      simp only [Bool.false_eq_true, if_false, Prod.mk.injEq, and_true] at h
      subst hsA
      subst h
      refine ⟨rfl, ?_, rfl⟩
      · intro p hp hupd l hl hid
        rcases List.mem_map.mp hl with ⟨l0, hl0, rfl⟩
        have hid0 : l0.id = p.1.listing_id := by
          by_cases hb : ((soldIds env
              (fetchCartForComplete u (sessionCartItemIds sess) s)).contains l0.id) = true
          · rw [if_pos hb] at hid; exact hid
          · rw [if_neg hb] at hid; exact hid
        have hmem : p.1.listing_id ∈
            soldIds env (fetchCartForComplete u (sessionCartItemIds sess) s) := by
          unfold soldIds
          refine List.mem_map.mpr ⟨p, ?_, rfl⟩
          refine List.mem_filter.mpr ⟨hp, ?_⟩
          rw [hupd]
          rfl
        have hc : ((soldIds env
            (fetchCartForComplete u (sessionCartItemIds sess) s)).contains l0.id) = true := by
          rw [hid0]
          exact List.elem_eq_true_of_mem hmem
        rw [if_pos hc]

/-- Witness for C3 (amended): the concrete successful run under the
no-failure oracle, where every update succeeded, so both matched listings
end up "sold". -/
theorem completeCheckout_success_effects_witness :
    exSession.payment_status = "paid" ∧
    completeCheckout noFailures exSession (some 1) exStore =
      ((completeCheckout noFailures exSession (some 1) exStore).1, none) ∧
    ((completeCheckout noFailures exSession (some 1) exStore).1.orders =
      exStore.orders ++ (fetchCartForComplete 1 (sessionCartItemIds exSession) exStore).map
        (fun p => ({ buyer_id := 1, seller_id := p.2.seller_id,
                     listing_id := p.1.listing_id, total_amount := p.2.price,
                     status := "completed", payment_id := exSession.payment_intent } : Order)) ∧
    (∀ p ∈ fetchCartForComplete 1 (sessionCartItemIds exSession) exStore,
      noFailures.listingUpdateFails p.1.listing_id = false →
      ∀ l ∈ (completeCheckout noFailures exSession (some 1) exStore).1.listings,
        l.id = p.1.listing_id → l.status = "sold") ∧
    (completeCheckout noFailures exSession (some 1) exStore).1.cart_items =
      exStore.cart_items.filter
        (fun ci => !(sessionCartItemIds exSession).contains ci.id)) :=
  ⟨rfl, rfl,
   completeCheckout_success_effects noFailures exSession 1 exStore
     (completeCheckout noFailures exSession (some 1) exStore).1 rfl rfl⟩

/-- **C6.** When none of the requested cart-item ids references a cart row
owned by the caller (ids owned by another buyer, or nonexistent), the
server-side re-query matches nothing and `createCheckoutSession` fails with
the "Cart items not found" error; being a pure read, it creates no provider
session and leaves the store unchanged. -/
theorem createCheckoutSession_not_owned (u : Nat) (ids : List Nat) (s : Store)
    (h : ∀ ci ∈ s.cart_items, ci.id ∈ ids → ci.buyer_id ≠ u) :
    createCheckoutSession (some u) ids s = .error .notFound := by
  have hnil : s.cart_items.filter (fun ci => ids.contains ci.id && ci.buyer_id == u) = [] := by
    apply List.filter_eq_nil_iff.mpr
    intro a ha hp
    rw [Bool.and_eq_true, beq_iff_eq] at hp
    exact h a ha (by simpa using hp.1) hp.2
  have hfetch : fetchCartForCreate u ids s = [] := by
    unfold fetchCartForCreate
    rw [hnil]
    rfl
  simp only [createCheckoutSession]
  rw [hfetch]
  rfl

/-- Witness for C6: buyer 2 requests buyer 1's cart item. -/
theorem createCheckoutSession_not_owned_witness :
    (∀ ci ∈ exStore.cart_items, ci.id ∈ [1000] → ci.buyer_id ≠ 2) ∧
    createCheckoutSession (some 2) [1000] exStore = .error .notFound :=
  ⟨by decide, createCheckoutSession_not_owned 2 [1000] exStore (by decide)⟩

lemma round_mul_100_199 : round ((199 : ℚ) * 100) = 19900 := by
  norm_num [round_eq]

lemma round_mul_100_350 : round ((350 : ℚ) * 100) = 35000 := by
  norm_num [round_eq]

/-- **C5.** Every line item of a session built by `createCheckoutSession`
takes its amount from the store's current listing row for a cart item owned
by the caller — `round(price * 100)` minor units — and never from any
client-supplied amount (the operation receives only ids from the client). -/
theorem createCheckoutSession_line_items_from_store (u : Nat) (ids : List Nat)
    (s : Store) (sess : CreatedSession)
    (h : createCheckoutSession (some u) ids s = .ok sess) :
    sess.line_items = (fetchCartForCreate u ids s).map lineItemOf ∧
    ∀ li ∈ sess.line_items, ∃ ci l b,
      ci ∈ s.cart_items ∧ ci.id ∈ ids ∧ ci.buyer_id = u ∧
      findListing s ci.listing_id = some l ∧ findBook s l.book_id = some b ∧
      li = { name := b.title, unit_amount := round (l.price * 100), quantity := 1 } := by
  have hline : sess.line_items = (fetchCartForCreate u ids s).map lineItemOf := by
    simp only [createCheckoutSession] at h
    by_cases he : (fetchCartForCreate u ids s).isEmpty
    · rw [if_pos he] at h
      cases h
    · rw [if_neg he] at h
      cases h
      rfl
  refine ⟨hline, ?_⟩
  intro li hli
  rw [hline] at hli
  rcases List.mem_map.mp hli with ⟨p, hp, rfl⟩
  rcases List.mem_filterMap.mp hp with ⟨ci, hcifil, hF⟩
  rcases List.mem_filter.mp hcifil with ⟨hcimem, hcipred⟩
  rw [Bool.and_eq_true, beq_iff_eq] at hcipred
  rcases Option.bind_eq_some.mp hF with ⟨l, hl, hmapb⟩
  rcases Option.map_eq_some'.mp hmapb with ⟨b, hb, hpv⟩
  refine ⟨ci, l, b, hcimem, by simpa using hcipred.1, hcipred.2, hl, hb, ?_⟩
  rw [← hpv]
  rfl

/-- Witness for C5 at the spec's concrete cart (prices 199 and 350): the
session's line items come from the store rows, and their amounts total
54900 minor units. -/
theorem createCheckoutSession_line_items_from_store_witness :
    (exCreated.line_items = (fetchCartForCreate 1 [1000, 1001] exStore).map lineItemOf ∧
    ∀ li ∈ exCreated.line_items, ∃ ci l b,
      ci ∈ exStore.cart_items ∧ ci.id ∈ [1000, 1001] ∧ ci.buyer_id = 1 ∧
      findListing exStore ci.listing_id = some l ∧ findBook exStore l.book_id = some b ∧
      li = { name := b.title, unit_amount := round (l.price * 100), quantity := 1 }) ∧
    (exCreated.line_items.map (fun li => li.unit_amount)).sum = 54900 :=
  ⟨createCheckoutSession_line_items_from_store 1 [1000, 1001] exStore exCreated rfl,
   by simp [exCreated, round_mul_100_199, round_mul_100_350]⟩

lemma fetch_map_aux (u cid q : Nat) (ids : List Nat) (s : Store) :
    ∀ l : List CartItem,
      ((l.map (fun ci => if ci.id == cid then { ci with quantity := q } else ci)).filter
          (fun ci => ids.contains ci.id && ci.buyer_id == u)).filterMap
        (fun ci => (findListing s ci.listing_id).bind fun li =>
          (findBook s li.book_id).map fun b => (ci, li, b)) =
      ((l.filter (fun ci => ids.contains ci.id && ci.buyer_id == u)).filterMap
        (fun ci => (findListing s ci.listing_id).bind fun li =>
          (findBook s li.book_id).map fun b => (ci, li, b))).map
        (fun p => (if p.1.id == cid then { p.1 with quantity := q } else p.1, p.2.1, p.2.2)) := by
  intro l
  induction l with
  | nil => rfl
  | cons ci rest ih =>
    simp only [List.map_cons, List.filter_cons]
    by_cases hc : (ci.id == cid) = true
    · have hc' : ci.id = cid := by simpa using hc
      simp only [hc, if_true]
      by_cases hp : (ids.contains ci.id && ci.buyer_id == u) = true
      · simp only [hp, if_true, List.filterMap_cons]
        cases hL : findListing s ci.listing_id with
        | none => simpa [hL] using ih
        | some li =>
          cases hB : findBook s li.book_id with
          | none => simpa [hL, hB] using ih
          | some b =>
            simp only [hL, hB, Option.some_bind, Option.map_some']
            rw [ih]
            simp [hc']
      · have hp' : (ids.contains ci.id && ci.buyer_id == u) = false := by simpa using hp
        simp only [hp', Bool.false_eq_true, if_false]
        exact ih
    · have hcf : (ci.id == cid) = false := by simpa using hc
      have hc' : ¬ci.id = cid := by simpa using hc
      simp only [hcf, Bool.false_eq_true, if_false]
      by_cases hp : (ids.contains ci.id && ci.buyer_id == u) = true
      · simp only [hp, if_true, List.filterMap_cons]
        cases hL : findListing s ci.listing_id with
        | none => simpa [hL] using ih
        | some li =>
          cases hB : findBook s li.book_id with
          | none => simpa [hL, hB] using ih
          | some b =>
            simp only [hL, hB, Option.some_bind, Option.map_some']
            rw [ih]
            simp [hc']
      · have hp' : (ids.contains ci.id && ci.buyer_id == u) = false := by simpa using hp
        simp only [hp', Bool.false_eq_true, if_false]
        exact ih

/-- The fetched line items and the emptiness check of `createCheckoutSession`
are unchanged by a cart-item quantity update. -/
lemma fetch_updCart (u cid q : Nat) (ids : List Nat) (s : Store) :
    (fetchCartForCreate u ids (updCart cid q s)).map lineItemOf =
      (fetchCartForCreate u ids s).map lineItemOf ∧
    (fetchCartForCreate u ids (updCart cid q s)).isEmpty =
      (fetchCartForCreate u ids s).isEmpty := by
  have hmain : fetchCartForCreate u ids (updCart cid q s) =
      (fetchCartForCreate u ids s).map
        (fun p => (if p.1.id == cid then { p.1 with quantity := q } else p.1, p.2.1, p.2.2)) :=
    fetch_map_aux u cid q ids s s.cart_items
  constructor
  · rw [hmain, List.map_map]
    exact List.map_congr_left (fun p _ => rfl)
  · rw [hmain]
    cases fetchCartForCreate u ids s <;> rfl

/-- **C10.** `createCheckoutSession` builds every line item with quantity 1
and an amount equal to the listing price, ignoring the cart item's stored
quantity entirely: updating a cart item's quantity via the cart page leaves
the built session unchanged, and the session total equals the sum of the
matched listings' rounded prices. -/
theorem createCheckoutSession_ignores_quantity (u cid q : Nat) (ids : List Nat) (s : Store) :
    createCheckoutSession (some u) ids (handleUpdateQuantity cid q s) =
      createCheckoutSession (some u) ids s ∧
    ∀ sess, createCheckoutSession (some u) ids s = .ok sess →
      (∀ li ∈ sess.line_items, li.quantity = 1) ∧
      (sess.line_items.map (fun li => li.unit_amount)).sum =
        ((fetchCartForCreate u ids s).map (fun p => round (p.2.1.price * 100))).sum := by
  have hline : ∀ sess, createCheckoutSession (some u) ids s = .ok sess →
      sess.line_items = (fetchCartForCreate u ids s).map lineItemOf := by
    intro sess h
    simp only [createCheckoutSession] at h
    by_cases he : (fetchCartForCreate u ids s).isEmpty
    · rw [if_pos he] at h
      cases h
    · rw [if_neg he] at h
      cases h
      rfl
  constructor
  · unfold handleUpdateQuantity
    by_cases hq : q < 1
    · rw [if_pos hq]
    · rw [if_neg hq]
      rcases fetch_updCart u cid q ids s with ⟨hmap, hempty⟩
      simp only [createCheckoutSession]
      rw [hempty]
      by_cases he : (fetchCartForCreate u ids s).isEmpty
      · rw [if_pos he, if_pos he]
      · rw [if_neg he, if_neg he, hmap]
  · intro sess h
    have hl := hline sess h
    constructor
    · intro li hli
      rw [hl] at hli
      rcases List.mem_map.mp hli with ⟨p, _, rfl⟩
      rfl
    · rw [hl, List.map_map]
      exact congrArg List.sum (List.map_congr_left (fun p _ => rfl))

/-- Witness for C10: raising a cart item's quantity to 3 leaves the created
session unchanged, and the concrete session's line items all have quantity 1
with the store-price total. -/
theorem createCheckoutSession_ignores_quantity_witness :
    (createCheckoutSession (some 1) [1000, 1001] (handleUpdateQuantity 1000 3 exStore) =
      createCheckoutSession (some 1) [1000, 1001] exStore) ∧
    ((∀ li ∈ exCreated.line_items, li.quantity = 1) ∧
      (exCreated.line_items.map (fun li => li.unit_amount)).sum =
        ((fetchCartForCreate 1 [1000, 1001] exStore).map
          (fun p => round (p.2.1.price * 100))).sum) :=
  ⟨(createCheckoutSession_ignores_quantity 1 1000 3 [1000, 1001] exStore).1,
   (createCheckoutSession_ignores_quantity 1 1000 3 [1000, 1001] exStore).2 exCreated rfl⟩

/-- **C9.** `sendMessage` fails with the validation error when the receiver
is missing or the content is empty; otherwise it appends exactly one message
row — `read = false`, sender = caller, the given receiver, content and
listing id — to the store and returns that stored row, touching nothing
else. -/
theorem sendMessage_spec (u : Nat) (receiverId : Option Nat) (content : String)
    (listingId : Option Nat) (newId newTime : Nat) (s : Store) :
    (sendMessage (some u) none content listingId newId newTime s =
      .error .missingFields) ∧
    (sendMessage (some u) receiverId "" listingId newId newTime s =
      .error .missingFields) ∧
    (∀ r, receiverId = some r → content ≠ "" →
      ∃ m s2, sendMessage (some u) receiverId content listingId newId newTime s =
          .ok (m, s2) ∧
        m.id = newId ∧ m.sender_id = u ∧ m.receiver_id = r ∧ m.content = content ∧
        m.created_at = newTime ∧ m.read = false ∧ m.listing_id = listingId ∧
        s2.messages = s.messages ++ [m] ∧ s2.listings = s.listings ∧
        s2.orders = s.orders ∧ s2.cart_items = s.cart_items ∧
        s2.profiles = s.profiles ∧ s2.books = s.books) := by
  refine ⟨rfl, ?_, ?_⟩
  · cases receiverId with
    | none => rfl
    | some r => simp [sendMessage]
  · intro r hr hc
    subst hr
    simp only [sendMessage]
    rw [if_neg hc]
    exact ⟨_, _, rfl, rfl, rfl, rfl, rfl, rfl, rfl, rfl, rfl, rfl, rfl, rfl, rfl, rfl⟩

/-- Witness for C9: buyer 7 messages seller 8 about listing 100, with the
inner hypotheses discharged at receiver 8 and non-empty content. -/
theorem sendMessage_spec_witness :
    (sendMessage (some 7) none "hello" (some 100) 42 99 exStore =
      .error .missingFields) ∧
    (sendMessage (some 7) (some 8) "" (some 100) 42 99 exStore =
      .error .missingFields) ∧
    ("Is this available?" ≠ "" ∧
      ∃ m s2, sendMessage (some 7) (some 8) "Is this available?" (some 100) 42 99 exStore =
          .ok (m, s2) ∧
        m.id = 42 ∧ m.sender_id = 7 ∧ m.receiver_id = 8 ∧ m.content = "Is this available?" ∧
        m.created_at = 99 ∧ m.read = false ∧ m.listing_id = some 100 ∧
        s2.messages = exStore.messages ++ [m] ∧ s2.listings = exStore.listings ∧
        s2.orders = exStore.orders ∧ s2.cart_items = exStore.cart_items ∧
        s2.profiles = exStore.profiles ∧ s2.books = exStore.books) :=
  ⟨(sendMessage_spec 7 (some 8) "hello" (some 100) 42 99 exStore).1,
   (sendMessage_spec 7 (some 8) "irrelevant" (some 100) 42 99 exStore).2.1,
   by decide,
   (sendMessage_spec 7 (some 8) "Is this available?" (some 100) 42 99 exStore).2.2
     8 rfl (by decide)⟩

/-! ## Sorting lemmas for the newest-first message query -/

lemma perm_insertDesc (m : Message) (l : List Message) : List.Perm (insertDesc m l) (m :: l) := by
  induction l with
  | nil => exact List.Perm.refl _
  | cons x xs ih =>
    unfold insertDesc
    by_cases h : x.created_at ≤ m.created_at
    · rw [if_pos h]
    · rw [if_neg h]
      exact (List.Perm.cons x ih).trans (List.Perm.swap m x xs)

lemma perm_sortDesc (l : List Message) : List.Perm (sortDesc l) l := by
  induction l with
  | nil => exact List.Perm.refl _
  | cons m ms ih => exact (perm_insertDesc m (sortDesc ms)).trans (List.Perm.cons m ih)

lemma sorted_insertDesc (m : Message) (l : List Message)
    (h : List.Pairwise msgGE l) : List.Pairwise msgGE (insertDesc m l) := by
  induction l with
  | nil => simp [insertDesc, msgGE]
  | cons x xs ih =>
    rcases List.pairwise_cons.mp h with ⟨hx, hxs⟩
    unfold insertDesc
    by_cases hcmp : x.created_at ≤ m.created_at
    · rw [if_pos hcmp]
      refine List.pairwise_cons.mpr ⟨?_, h⟩
      intro y hy
      rcases List.mem_cons.mp hy with hy | hy
      · subst hy; exact hcmp
      · exact le_trans (hx y hy) hcmp
    · rw [if_neg hcmp]
      refine List.pairwise_cons.mpr ⟨?_, ih hxs⟩
      intro y hy
      rcases List.mem_cons.mp ((perm_insertDesc m xs).mem_iff.mp hy) with hy | hy
      · subst hy; exact le_of_lt (lt_of_not_le hcmp)
      · exact hx y hy

lemma sorted_sortDesc (l : List Message) : List.Pairwise msgGE (sortDesc l) := by
  induction l with
  | nil => exact List.Pairwise.nil
  | cons m ms ih => exact sorted_insertDesc m (sortDesc ms) ih

/-! ## The grouping fold -/

lemma insertGrouped_not_mem (k : Nat) (m : Message) :
    ∀ gs : List (Nat × List Message), k ∉ gs.map Prod.fst →
      insertGrouped k m gs = gs ++ [(k, [m])] := by
  intro gs
  induction gs with
  | nil => intro _; rfl
  | cons g rest ih =>
    intro h
    simp only [List.map_cons, List.mem_cons] at h
    push_neg at h
    have hk1 : ¬(g.1 == k) = true := by
      simp only [beq_iff_eq]
      exact fun he => h.1 he.symm
    unfold insertGrouped
    rw [if_neg hk1, ih h.2]
    rfl

lemma insertGrouped_mem (k : Nat) (m : Message) :
    ∀ gs : List (Nat × List Message), k ∈ gs.map Prod.fst →
      (gs.map Prod.fst).Nodup →
      insertGrouped k m gs =
        gs.map (fun g => if g.1 = k then (g.1, g.2 ++ [m]) else g) := by
  intro gs
  induction gs with
  | nil => intro hmem _; simp at hmem
  | cons g rest ih =>
    intro hmem hnd
    simp only [List.map_cons, List.nodup_cons] at hnd
    by_cases hk : g.1 = k
    · unfold insertGrouped
      rw [if_pos (beq_iff_eq.mpr hk)]
      simp only [List.map_cons, if_pos hk]
      congr 1
      have hrest : ∀ g2 ∈ rest, (if g2.1 = k then (g2.1, g2.2 ++ [m]) else g2) = g2 := by
        intro g2 hg2
        rw [if_neg]
        intro he
        exact hnd.1 (by rw [hk, ← he]; exact List.mem_map.mpr ⟨g2, hg2, rfl⟩)
      rw [List.map_congr_left hrest]
      simp
    · have hmem2 : k ∈ rest.map Prod.fst := by
        rw [List.map_cons] at hmem
        rcases List.mem_cons.mp hmem with h | h
        · exact absurd h.symm hk
        · exact h
      unfold insertGrouped
      rw [if_neg (by simpa [beq_iff_eq] using fun he : g.1 = k => hk he)]
      rw [ih hmem2 hnd.2]
      simp only [List.map_cons, if_neg hk]

lemma head?_append_left {α : Type} (l l2 : List α) (h : l ≠ []) :
    (l ++ l2).head? = l.head? := by
  cases l with
  | nil => exact absurd rfl h
  | cons a as => rfl

lemma mem_of_head?_eq_some {α : Type} {l : List α} {a : α} (h : l.head? = some a) :
    a ∈ l := by
  cases l with
  | nil => cases h
  | cons x xs =>
    have hx : x = a := by simpa using h
    rw [← hx]
    exact List.mem_cons_self x xs

lemma GInv_step (u : Nat) (L : List Message) (gs : List (Nat × List Message)) (m : Message)
    (h : GInv u L gs) (hle : ∀ x ∈ L, m.created_at ≤ x.created_at) :
    GInv u (L ++ [m]) (convStep u gs m) := by
  unfold convStep
  by_cases hk : counterpart u m ∈ gs.map Prod.fst
  · rw [insertGrouped_mem (counterpart u m) m gs hk h.nodup]
    have hkeys : (gs.map (fun g => if g.1 = counterpart u m then (g.1, g.2 ++ [m]) else g)).map
        Prod.fst = gs.map Prod.fst := by
      rw [List.map_map]
      refine List.map_congr_left ?_
      intro g _
      by_cases hg : g.1 = counterpart u m <;> simp [hg]
    refine ⟨?_, ?_, ?_, ?_, ?_⟩
    · rw [hkeys]
      exact h.nodup
    · intro g2 hg2
      rcases List.mem_map.mp hg2 with ⟨g, hg, rfl⟩
      by_cases hgk : g.1 = counterpart u m
      · rw [if_pos hgk, List.filter_append, ← h.content g hg]
        simp [← hgk]
      · rw [if_neg hgk, List.filter_append, ← h.content g hg]
        suffices hnil : [m].filter (fun m2 => counterpart u m2 == g.1) = [] by
          rw [hnil, List.append_nil]
        have hbf : (counterpart u m == g.1) = false := by
          rw [beq_eq_false_iff_ne]
          exact fun he => hgk he.symm
        simp only [List.filter, hbf]
    · intro m2 hm2
      rw [hkeys]
      rcases List.mem_append.mp hm2 with hm | hm
      · exact h.cover m2 hm
      · have : m2 = m := by simpa using hm
        rw [this]
        exact hk
    · intro g2 hg2
      rcases List.mem_map.mp hg2 with ⟨g, hg, rfl⟩
      by_cases hgk : g.1 = counterpart u m
      · rw [if_pos hgk]
        simp
      · rw [if_neg hgk]
        exact h.nonempty g hg
    · have hhead : ∀ g ∈ gs,
          ((if g.1 = counterpart u m then (g.1, g.2 ++ [m]) else g) :
            Nat × List Message).2.head? = g.2.head? := by
        intro g hg
        by_cases hgk : g.1 = counterpart u m
        · rw [if_pos hgk]
          exact head?_append_left g.2 [m] (h.nonempty g hg)
        · rw [if_neg hgk]
      rw [List.pairwise_map]
      refine List.Pairwise.imp_of_mem ?_ h.ord
      intro g1 g2 hg1 hg2 hr m1 m2 hm1 hm2
      rw [hhead g1 hg1] at hm1
      rw [hhead g2 hg2] at hm2
      exact hr m1 m2 hm1 hm2
  · rw [insertGrouped_not_mem (counterpart u m) m gs hk]
    refine ⟨?_, ?_, ?_, ?_, ?_⟩
    · rw [List.map_append]
      refine List.nodup_append.mpr ⟨h.nodup, List.nodup_singleton _, ?_⟩
      intro a ha hb
      have : a = counterpart u m := by simpa using hb
      rw [this] at ha
      exact hk ha
    · intro g2 hg2
      rcases List.mem_append.mp hg2 with hg | hg
      · rw [List.filter_append, ← h.content g2 hg]
        suffices hnil : [m].filter (fun m2 => counterpart u m2 == g2.1) = [] by
          rw [hnil, List.append_nil]
        have hbf : (counterpart u m == g2.1) = false := by
          rw [beq_eq_false_iff_ne]
          exact fun he => hk (he ▸ List.mem_map.mpr ⟨g2, hg, rfl⟩)
        simp only [List.filter, hbf]
      · have hg2e : g2 = (counterpart u m, [m]) := by simpa using hg
        subst hg2e
        show [m] = (L ++ [m]).filter (fun m2 => counterpart u m2 == counterpart u m)
        rw [List.filter_append]
        have hLnil : L.filter (fun m2 => counterpart u m2 == counterpart u m) = [] := by
          apply List.filter_eq_nil_iff.mpr
          intro a ha hpa
          rw [beq_iff_eq] at hpa
          exact hk (hpa ▸ h.cover a ha)
        rw [hLnil, List.nil_append]
        simp
    · intro m2 hm2
      rw [List.map_append]
      rcases List.mem_append.mp hm2 with hm | hm
      · exact List.mem_append.mpr (Or.inl (h.cover m2 hm))
      · have : m2 = m := by simpa using hm
        rw [this]
        refine List.mem_append.mpr (Or.inr ?_)
        simp
    · intro g2 hg2
      rcases List.mem_append.mp hg2 with hg | hg
      · exact h.nonempty g2 hg
      · have hg2e : g2 = (counterpart u m, [m]) := by simpa using hg
        subst hg2e
        simp
    · rw [List.pairwise_append]
      refine ⟨h.ord, List.pairwise_singleton _ _, ?_⟩
      intro g1 hg1 g2 hg2 m1 m2 hm1 hm2
      have hg2e : g2 = (counterpart u m, [m]) := by simpa using hg2
      subst hg2e
      have hm2e : m2 = m := by simpa using hm2.symm
      have hm1L : m1 ∈ L := by
        have hmem := mem_of_head?_eq_some hm1
        rw [h.content g1 hg1] at hmem
        exact (List.mem_filter.mp hmem).1
      rw [hm2e]
      exact hle m1 hm1L

lemma GInv_init (u : Nat) : GInv u [] [] :=
  ⟨List.nodup_nil, fun g hg => absurd hg (List.not_mem_nil g),
   fun m hm => absurd hm (List.not_mem_nil m),
   fun g hg => absurd hg (List.not_mem_nil g), List.Pairwise.nil⟩

lemma GInv_foldl (u : Nat) :
    ∀ (suffix L : List Message) (gs : List (Nat × List Message)),
      GInv u L gs → List.Pairwise msgGE (L ++ suffix) →
      GInv u (L ++ suffix) (suffix.foldl (convStep u) gs) := by
  intro suffix
  induction suffix with
  | nil =>
    intro L gs h _
    simpa using h
  | cons m rest ih =>
    intro L gs h hsort
    have hle : ∀ x ∈ L, m.created_at ≤ x.created_at := by
      intro x hx
      exact (List.pairwise_append.mp hsort).2.2 x hx m (List.mem_cons_self m rest)
    have hstep := GInv_step u L gs m h hle
    have hsort2 : List.Pairwise msgGE ((L ++ [m]) ++ rest) := by
      rw [List.append_assoc, List.singleton_append]
      exact hsort
    have hres := ih (L ++ [m]) (convStep u gs m) hstep hsort2
    rw [List.append_assoc, List.singleton_append] at hres
    exact hres

/-- The grouping fold on a newest-first message list satisfies the full
grouping invariant. -/
lemma GInv_groupConvs (u : Nat) (msgs : List Message)
    (hs : List.Pairwise msgGE msgs) : GInv u msgs (groupConvs u msgs) := by
  have h := GInv_foldl u msgs [] [] (GInv_init u) (by simpa using hs)
  simpa [groupConvs] using h

/-- **C7.** The conversation list is ordered by `lastMessage.created_at`
descending, and each conversation's `lastMessage` is a newest message
exchanged with that counterpart: no stored message involving the caller and
that counterpart is more recent. -/
theorem listConversations_ordered (u : Nat) (s : Store) (convs : List Conversation)
    (h : listConversations (some u) s = .ok convs) :
    convs.Pairwise (fun c1 c2 => ∀ m1 m2, c1.lastMessage = some m1 →
      c2.lastMessage = some m2 → m2.created_at ≤ m1.created_at) ∧
    ∀ c ∈ convs, ∃ m, c.lastMessage = some m ∧ m ∈ s.messages ∧
      msgInvolves u m = true ∧ counterpart u m = c.userId ∧
      ∀ m2 ∈ s.messages, msgInvolves u m2 = true → counterpart u m2 = c.userId →
        m2.created_at ≤ m.created_at := by
  have hconvs : convs = (groupConvs u (sortDesc (s.messages.filter (msgInvolves u)))).map
      (mkConversation u s) := by
    simp only [listConversations] at h
    cases h
    rfl
  subst hconvs
  have hsort : List.Pairwise msgGE (sortDesc (s.messages.filter (msgInvolves u))) :=
    sorted_sortDesc _
  have hperm := perm_sortDesc (s.messages.filter (msgInvolves u))
  have hinv := GInv_groupConvs u (sortDesc (s.messages.filter (msgInvolves u))) hsort
  constructor
  · rw [List.pairwise_map]
    refine List.Pairwise.imp ?_ hinv.ord
    intro g1 g2 hr m1 m2 hm1 hm2
    exact hr m1 m2 hm1 hm2
  · intro c hc
    rcases List.mem_map.mp hc with ⟨g, hg, rfl⟩
    obtain ⟨hd, tl, hgd⟩ := List.exists_cons_of_ne_nil (hinv.nonempty g hg)
    have hcontent := hinv.content g hg
    have hdmem : hd ∈ sortDesc (s.messages.filter (msgInvolves u)) ∧
        (counterpart u hd == g.1) = true := by
      have hin : hd ∈ g.2 := by
        rw [hgd]
        exact List.mem_cons_self hd tl
      rw [hcontent] at hin
      exact List.mem_filter.mp hin
    have hdfil : hd ∈ s.messages.filter (msgInvolves u) := hperm.mem_iff.mp hdmem.1
    have hdstore := List.mem_filter.mp hdfil
    refine ⟨hd, ?_, hdstore.1, hdstore.2, beq_iff_eq.mp hdmem.2, ?_⟩
    · show g.2.head? = some hd
      rw [hgd]
      rfl
    · intro m2 hm2s hm2i hm2c
      have hm2fil : m2 ∈ sortDesc (s.messages.filter (msgInvolves u)) :=
        hperm.mem_iff.mpr (List.mem_filter.mpr ⟨hm2s, hm2i⟩)
      have hm2g : m2 ∈ g.2 := by
        rw [hcontent]
        exact List.mem_filter.mpr ⟨hm2fil, beq_iff_eq.mpr hm2c⟩
      have hsg : List.Pairwise msgGE g.2 := by
        rw [hcontent]
        exact List.Pairwise.sublist (List.filter_sublist _) hsort
      rw [hgd] at hm2g hsg
      rcases List.mem_cons.mp hm2g with he | he
      · rw [he]
      · exact (List.pairwise_cons.mp hsg).1 m2 he

/-- Witness for C7 on `msgStore`: caller 1's conversations come back with
counterpart 5 (latest message at time 3) before counterpart 6 (latest at
time 1), ordered by last-message recency. -/
theorem listConversations_ordered_witness :
    listConversations (some 1) msgStore = .ok exConvs ∧
    (exConvs.Pairwise (fun c1 c2 => ∀ m1 m2, c1.lastMessage = some m1 →
       c2.lastMessage = some m2 → m2.created_at ≤ m1.created_at) ∧
     ∀ c ∈ exConvs, ∃ m, c.lastMessage = some m ∧ m ∈ msgStore.messages ∧
       msgInvolves 1 m = true ∧ counterpart 1 m = c.userId ∧
       ∀ m2 ∈ msgStore.messages, msgInvolves 1 m2 = true → counterpart 1 m2 = c.userId →
         m2.created_at ≤ m.created_at) ∧
    exConvs.map (fun c => c.userId) = [5, 6] :=
  ⟨rfl, listConversations_ordered 1 msgStore exConvs rfl, rfl⟩

/-- Pointwise identity between the unread predicate accumulated through the
grouping pipeline and the claim's predicate, for a counterpart distinct from
the caller. -/
lemma unread_pred_eq (u X : Nat) (hne : X ≠ u) (m : Message) :
    (((m.receiver_id == u && !m.read) && (counterpart u m == X)) && msgInvolves u m) =
      (m.sender_id == X && (m.receiver_id == u && !m.read)) := by
  by_cases hru : m.receiver_id = u
  · by_cases hsu : m.sender_id = u
    · by_cases hsX : m.sender_id = X
      · exact absurd (hsX ▸ hsu) hne
      · have h1 : (u == X) = false := by
          rw [beq_eq_false_iff_ne]
          exact fun he => hne he.symm
        simp [counterpart, msgInvolves, hsu, hru, h1]
    · have h2 : (m.sender_id == u) = false := by
        rw [beq_eq_false_iff_ne]
        exact hsu
      simp [counterpart, msgInvolves, h2, hru, Bool.and_comm]
  · have h1 : (m.receiver_id == u) = false := by
      rw [beq_eq_false_iff_ne]
      exact hru
    simp [counterpart, msgInvolves, h1]

/-- For any store, the unread count reported for counterpart `X` equals the
number of stored messages from `X` to the caller with `read = false`. -/
lemma listConversations_unread_eq (u X : Nat) (s : Store) (hne : X ≠ u)
    (convs : List Conversation) (h : listConversations (some u) s = .ok convs) :
    ∀ c ∈ convs, c.userId = X →
      c.unreadCount = s.messages.countP
        (fun m => m.sender_id == X && (m.receiver_id == u && !m.read)) := by
  have hconvs : convs = (groupConvs u (sortDesc (s.messages.filter (msgInvolves u)))).map
      (mkConversation u s) := by
    simp only [listConversations] at h
    cases h
    rfl
  subst hconvs
  have hsort := sorted_sortDesc (s.messages.filter (msgInvolves u))
  have hinv := GInv_groupConvs u (sortDesc (s.messages.filter (msgInvolves u))) hsort
  intro c hc hcX
  rcases List.mem_map.mp hc with ⟨g, hg, rfl⟩
  have hgX : g.1 = X := hcX
  have hcontent := hinv.content g hg
  show (g.2.filter (fun m => m.receiver_id == u && !m.read)).length = _
  rw [hcontent, hgX, ← List.countP_eq_length_filter, List.countP_filter,
    (perm_sortDesc (s.messages.filter (msgInvolves u))).countP_eq, List.countP_filter]
  exact List.countP_congr (fun m _ => by rw [unread_pred_eq u X hne m])

/-- **C8.** The unread count reported for counterpart `X` equals the number
of stored messages with sender `X`, receiver the caller, and `read = false`;
after `getThread(caller, X)` runs, every such message has `read = true`, so
a subsequent `listConversations` reports unread count 0 for `X`. -/
theorem conversations_unread (u X : Nat) (s : Store) (hne : X ≠ u) :
    (∀ convs, listConversations (some u) s = .ok convs →
      ∀ c ∈ convs, c.userId = X →
        c.unreadCount = s.messages.countP
          (fun m => m.sender_id == X && (m.receiver_id == u && !m.read))) ∧
    (∀ t s2, getThread (some u) X s = .ok (t, s2) →
      (∀ m ∈ s2.messages, m.sender_id = X → m.receiver_id = u → m.read = true) ∧
      ∀ convs2, listConversations (some u) s2 = .ok convs2 →
        ∀ c ∈ convs2, c.userId = X → c.unreadCount = 0) := by
  constructor
  · intro convs h
    exact listConversations_unread_eq u X s hne convs h
  · intro t s2 h
    simp only [getThread] at h
    have hs2 : s2 = { s with messages := s.messages.map (fun m =>
        if m.receiver_id == u && m.sender_id == X then { m with read := true } else m) } := by
      cases h
      rfl
    subst hs2
    constructor
    · intro m hm
      rcases List.mem_map.mp hm with ⟨m0, hm0, rfl⟩
      by_cases hcond : (m0.receiver_id == u && m0.sender_id == X) = true
      · intro _ _
        simp [hcond]
      · intro hsX hru
        rw [if_neg hcond] at hsX hru
        exact absurd (by simp [hsX, hru]) hcond
    · intro convs2 h2 c hc hcX
      have hcount := listConversations_unread_eq u X _ hne convs2 h2 c hc hcX
      rw [hcount]
      show (s.messages.map (fun m =>
          if m.receiver_id == u && m.sender_id == X then { m with read := true } else m)).countP
        (fun m => m.sender_id == X && (m.receiver_id == u && !m.read)) = 0
      rw [List.countP_map]
      apply List.countP_eq_zero.mpr
      intro m0 hm0
      by_cases hcond : (m0.receiver_id == u && m0.sender_id == X) = true
      · simp [Function.comp, hcond]
      · simp only [Function.comp, if_neg hcond]
        intro hp
        rw [Bool.and_eq_true, Bool.and_eq_true] at hp
        exact hcond (by rw [Bool.and_eq_true]; exact ⟨hp.2.1, hp.1⟩)

/-- Witness for C8 on `msgStore`: counterpart 5 has exactly 2 unread
messages for caller 1, and after fetching the thread the count drops to 0. -/
theorem conversations_unread_witness :
    (5 : Nat) ≠ 1 ∧
    ((∀ convs, listConversations (some 1) msgStore = .ok convs →
      ∀ c ∈ convs, c.userId = 5 →
        c.unreadCount = msgStore.messages.countP
          (fun m => m.sender_id == 5 && (m.receiver_id == 1 && !m.read))) ∧
    (∀ t s2, getThread (some 1) 5 msgStore = .ok (t, s2) →
      (∀ m ∈ s2.messages, m.sender_id = 5 → m.receiver_id = 1 → m.read = true) ∧
      ∀ convs2, listConversations (some 1) s2 = .ok convs2 →
        ∀ c ∈ convs2, c.userId = 5 → c.unreadCount = 0)) ∧
    msgStore.messages.countP
      (fun m => m.sender_id == 5 && (m.receiver_id == 1 && !m.read)) = 2 :=
  ⟨by decide, conversations_unread 1 5 msgStore (by decide), rfl⟩

end BookMyBook
